import Mathlib

/-!
Verification development for the kubectl plugin subsystem
(pkg/kubectl/plugins/{helpers,runner}.go and pkg/kubectl/cmd/plugin.go).

Go strings are byte slices; we embed them as `List Nat` (the claims only
involve ASCII data, where Go's rune-based case functions agree with the
byte-level transforms used here).  Fallible Go functions returning
`(T, error)` are embedded as `Except GoErr T`.
-/

/-- Go string, embedded as its list of bytes. -/
abbrev GoStr : Type := List Nat

/-- Go error value, identified by its message. -/
abbrev GoErr : Type := GoStr

/-- Byte list of an ASCII string literal. -/
def gs (s : String) : GoStr := s.data.map Char.toNat

/-- Embedding of Go `strings.ToUpper` restricted to ASCII bytes
(lowercase letters 97..122 map down by 32, everything else unchanged). -/
def goToUpper (s : GoStr) : GoStr :=
  s.map (fun b => if 97 ≤ b ∧ b ≤ 122 then b - 32 else b)

/-- Embedding of Go `strings.TrimPrefix(s, "--")`: drop a leading "--"
(byte 45 twice) if present, otherwise return the string unchanged. -/
def goTrimPrefixDashes (s : GoStr) : GoStr :=
  match s with
  | 45 :: 45 :: rest => rest
  | _ => s

/-- Embedding of Go `strings.Replace(s, "-", "_", -1)`: the pattern is a
single byte, so replacing all occurrences is a byte map (45 ↦ 95). -/
def goReplaceDashUnderscore (s : GoStr) : GoStr :=
  s.map (fun b => if b = 45 then 95 else b)

/-- Split a byte string at every byte satisfying `p`, keeping empty
tokens, as Go `strings.Split` does for a one-byte separator. -/
def splitWhen (p : Nat → Bool) : GoStr → List GoStr
  | [] => [[]]
  | b :: rest =>
    if p b then [] :: splitWhen p rest
    else
      match splitWhen p rest with
      | [] => [[b]]
      | t :: ts => (b :: t) :: ts

/-- Embedding of Go `strings.Split(s, sep)` for a single-byte separator. -/
def goSplitOnByte (sep : Nat) (s : GoStr) : List GoStr :=
  splitWhen (fun b => b == sep) s

/-- Embedding of Go `strings.Join(parts, sep)`. -/
def goJoin (sep : GoStr) : List GoStr → GoStr
  | [] => []
  | [x] => x
  | x :: y :: ys => x ++ sep ++ goJoin sep (y :: ys)

/-! ### camelcase.Split

Modelled from the spec: the vendored word-splitting dependency
(`github.com/fatih/camelcase`, not under src/) used by `FieldToEnvName`.
Per the spec, a path segment "is decomposed into word boundaries
(transitions between lowercase/uppercase/digit runs)" and "sequences of
uppercase letters such as an acronym must not be split letter-by-letter":
we group consecutive bytes of equal character class, then move the final
upper-case letter of an upper run that is immediately followed by a
lower-case run onto that run (so `APIPath` splits as `API`/`Path`),
dropping any run left empty. -/

/-- Character class of an ASCII byte: 1 lowercase, 2 uppercase, 3 digit,
4 other. -/
def byteClass (b : Nat) : Nat :=
  if 97 ≤ b ∧ b ≤ 122 then 1
  else if 65 ≤ b ∧ b ≤ 90 then 2
  else if 48 ≤ b ∧ b ≤ 57 then 3
  else 4

/-- Group a byte string into maximal runs of equal character class. -/
def groupByClass : GoStr → List GoStr
  | [] => []
  | b :: rest =>
    match groupByClass rest with
    | [] => [[b]]
    | [] :: gsr => [b] :: [] :: gsr
    | (c :: g) :: gsr =>
      if byteClass b = byteClass c then (b :: c :: g) :: gsr
      else [b] :: (c :: g) :: gsr

/-- Is the first byte of the run an uppercase letter? -/
def headIsUpper (r : GoStr) : Prop := 65 ≤ r.headD 0 ∧ r.headD 0 ≤ 90

/-- Is the first byte of the run a lowercase letter? -/
def headIsLower (r : GoStr) : Prop := 97 ≤ r.headD 0 ∧ r.headD 0 ≤ 122

instance (r : GoStr) : Decidable (headIsUpper r) := by
  unfold headIsUpper; infer_instance

instance (r : GoStr) : Decidable (headIsLower r) := by
  unfold headIsLower; infer_instance

/-- Acronym fix-up pass, walking the remaining runs with the current run
carried separately (structural recursion on the remaining runs). -/
def fixAcronymsAux (r : GoStr) : List GoStr → List GoStr
  | [] => [r]
  | r2 :: rest =>
    if headIsUpper r ∧ headIsLower r2 then
      r.dropLast :: fixAcronymsAux (r.getLastD 0 :: r2) rest
    else
      r :: fixAcronymsAux r2 rest

/-- Acronym fix-up pass: when an uppercase run is followed by a lowercase
run, its last letter starts the following word. -/
def fixAcronyms : List GoStr → List GoStr
  | [] => []
  | r :: rs => fixAcronymsAux r rs

/-- Word split of one camel-case segment (empty runs produced by the
fix-up pass are dropped). -/
def camelSplit (s : GoStr) : List GoStr :=
  (fixAcronyms (groupByClass s)).filter (fun r => !r.isEmpty)

/-! ### pkg/kubectl/plugins/helpers.go -/

/-- Embedding of `FlagToEnvName` (helpers.go): strip a leading `--`,
uppercase, replace every dash with an underscore, prepend the prefix. -/
def FlagToEnvName (flagName pfx : GoStr) : GoStr :=
  pfx ++ goReplaceDashUnderscore (goToUpper (goTrimPrefixDashes flagName))

/-- Embedding of `FlagToEnv` (helpers.go): `NAME=value` entry for a flag
(61 is the byte `=`). -/
def FlagToEnv (flagName flagValue pfx : GoStr) : GoStr :=
  FlagToEnvName flagName pfx ++ 61 :: flagValue

/-- Per-segment transform of `FieldToEnvName`: camel-case split, joined
with underscores (byte 95), uppercased. -/
def segToEnvPart (s : GoStr) : GoStr :=
  goToUpper (goJoin [95] (camelSplit s))

/-- Embedding of `FieldToEnvName` (helpers.go): split the field path on
`.` (byte 46), transform each segment, join with underscores under the
prefix.  The Go loop accumulates the transformed parts in order, which is
the map below. -/
def FieldToEnvName (fieldName pfx : GoStr) : GoStr :=
  pfx ++ goJoin [95] ((goSplitOnByte 46 fieldName).map segToEnvPart)

/-- Embedding of `FieldToEnv` (helpers.go): `NAME=value` entry for a
descriptor/config field. -/
def FieldToEnv (fieldName fieldValue pfx : GoStr) : GoStr :=
  FieldToEnvName fieldName pfx ++ 61 :: fieldValue

/-! ### os.ExpandEnv

Embedding of the Go standard library `os.Expand`/`os.ExpandEnv` (the
Go 1.9 semantics contemporary with this code), called by
`ExecPluginRunner.Run` to expand `$VAR`-style references in the
invocation template against the ambient process environment. -/

/-- Go `isShellSpecialVar`: bytes `*`, `#`, `$`, `@`, `!`, `?`, `-` and
the digits. -/
def isShellSpecialVar (b : Nat) : Prop :=
  b = 42 ∨ b = 35 ∨ b = 36 ∨ b = 64 ∨ b = 33 ∨ b = 63 ∨ b = 45 ∨ (48 ≤ b ∧ b ≤ 57)

instance (b : Nat) : Decidable (isShellSpecialVar b) := by
  unfold isShellSpecialVar; infer_instance

/-- Go `isAlphaNum`: underscore, digits, lowercase and uppercase ASCII
letters. -/
def isAlphaNum (b : Nat) : Bool :=
  b == 95 || (48 ≤ b && b ≤ 57) || (97 ≤ b && b ≤ 122) || (65 ≤ b && b ≤ 90)

/-- Brace scan of Go `getShellName`: `rest` is the input just after the
opening `{` (byte 123); scan for the closing `}` (byte 125), returning
the name and the number of bytes consumed after the `$`. -/
def braceShellName (rest : GoStr) : GoStr × Nat :=
  match rest.findIdx? (fun b => b == 125) with
  | some k => (rest.take k, k + 2)
  | none => ([], 1)

/-- Embedding of Go `getShellName(s)`: the name referenced at the start
of `s` (the text right after a `$`) and the number of bytes it spans. -/
def getShellName (s : GoStr) : GoStr × Nat :=
  match s with
  | [] => ([], 0)
  | b :: rest =>
    if b = 123 then
      match rest with
      | b1 :: b2 :: _ =>
        if isShellSpecialVar b1 ∧ b2 = 125 then ([b1], 3)
        else braceShellName rest
      | _ => braceShellName rest
    else if isShellSpecialVar b then ([b], 1)
    else
      let nm := s.takeWhile isAlphaNum
      (nm, nm.length)

/-- Fuel-indexed main loop of Go `os.Expand`: a `$` followed by at least
one byte is replaced by `mapping` applied to the referenced name; a
trailing `$` is kept literally.  Each step consumes at least one byte,
so fuel equal to the input length makes the fuel bound unreachable. -/
def osExpandAux (mapping : GoStr → GoStr) : Nat → GoStr → GoStr
  | 0, s => s
  | _ + 1, [] => []
  | fuel + 1, b :: rest =>
    if b = 36 then
      match rest with
      | [] => [36]
      | _ :: _ =>
        let p := getShellName rest
        mapping p.1 ++ osExpandAux mapping fuel (rest.drop p.2)
    else
      b :: osExpandAux mapping fuel rest

/-- Embedding of Go `os.Expand(s, mapping)`. -/
def osExpand (mapping : GoStr → GoStr) (s : GoStr) : GoStr :=
  osExpandAux mapping s.length s

/-- Go `os.Getenv` over an ambient environment given as an association
list of names to values; an unset name yields the empty string. -/
def goGetenv (ambient : List (GoStr × GoStr)) (nm : GoStr) : GoStr :=
  ((ambient.find? (fun kv => kv.fst == nm)).map Prod.snd).getD []

/-- Embedding of Go `os.ExpandEnv(s)`: expand against the ambient
process environment. -/
def osExpandEnv (ambient : List (GoStr × GoStr)) (s : GoStr) : GoStr :=
  osExpand (goGetenv ambient) s

/-! ### Plugin descriptor (pkg/kubectl/plugins/plugins.go, not under src/)

The `Plugin` struct itself is declared outside the provided sources; its
shape is taken from the spec's data model: name, short summary, long
help, example text, invocation template (`command`), ordered children
(`tree`) and source directory (`dir`). -/

/-- Plugin descriptor tree. -/
inductive Plugin : Type where
  | mk : (name shortDesc longDesc exampleStr command : GoStr) →
      (tree : List Plugin) → (dir : GoStr) → Plugin

/-- Descriptor name (the subcommand token). -/
def Plugin.name : Plugin → GoStr
  | .mk n _ _ _ _ _ _ => n

/-- Descriptor short summary. -/
def Plugin.shortDesc : Plugin → GoStr
  | .mk _ s _ _ _ _ _ => s

/-- Descriptor long help text. -/
def Plugin.longDesc : Plugin → GoStr
  | .mk _ _ l _ _ _ _ => l

/-- Descriptor example text. -/
def Plugin.exampleStr : Plugin → GoStr
  | .mk _ _ _ e _ _ _ => e

/-- Descriptor invocation template. -/
def Plugin.command : Plugin → GoStr
  | .mk _ _ _ _ c _ _ => c

/-- Descriptor children, in order. -/
def Plugin.tree : Plugin → List Plugin
  | .mk _ _ _ _ _ t _ => t

/-- Descriptor source directory (working directory for execution). -/
def Plugin.dir : Plugin → GoStr
  | .mk _ _ _ _ _ _ d => d

/-- Modelled from the spec: `Plugin.IsValid` (pkg/kubectl/plugins, not
under src/) — "a descriptor is valid iff `name` is non-empty". -/
def Plugin.isValid (p : Plugin) : Prop := p.name ≠ []

instance (p : Plugin) : Decidable p.isValid := by
  unfold Plugin.isValid; infer_instance

/-! ### pkg/kubectl/plugins/runner.go -/

/-- Embedding of `RunningContext` (runner.go).  The three I/O stream
fields are opaque handles passed through to the child unchanged and are
not modelled.  A `RunningEnvProvider` is observationally the result of
its single `Env()` call, so the `EnvProvider` field is embedded as that
result. -/
structure RunningContext where
  args : List GoStr
  envProvider : Except GoErr (List GoStr)
  workingDir : GoStr

/-- The request with which `ExecPluginRunner.Run` starts the child
process: executable, argument vector, child environment, working
directory. -/
structure ExecSpec where
  base : GoStr
  args : List GoStr
  childEnv : List GoStr
  dir : GoStr
deriving DecidableEq

/-- Embedding of `ExecPluginRunner.Run` (runner.go).  The template is
expanded with `os.ExpandEnv` against the ambient process environment,
split on single spaces (byte 32) into the executable and fixed leading
arguments, and `ctx.Args` is appended.  `Except.error e` means the
runner returned `e` before the child was started (the only error source
modelled is environment resolution); `Except.ok spec` means the child
process was started with `spec` (its exit status is decided by the
operating system, outside this model). -/
def ExecPluginRunner.Run (ambient : List (GoStr × GoStr)) (plugin : Plugin)
    (ctx : RunningContext) : Except GoErr ExecSpec :=
  let command := goSplitOnByte 32 (osExpandEnv ambient plugin.command)
  let base := command.headD []
  let args := command.tail ++ ctx.args
  match ctx.envProvider with
  | Except.error e => Except.error e
  | Except.ok env => Except.ok ⟨base, args, env, ctx.workingDir⟩

/-- Embedding of `MultiRunningEnvProvider.Env`'s loop (runner.go): `env`
is the accumulator, entries of each successful provider are appended in
order, and the first failing provider aborts with its error (the Go code
returns an empty slice together with the error; `Except.error` carries
both facts). -/
def multiEnvLoop (env : List GoStr) :
    List (Except GoErr (List GoStr)) → Except GoErr (List GoStr)
  | [] => Except.ok env
  | r :: rest =>
    match r with
    | Except.error e => Except.error e
    | Except.ok pEnv => multiEnvLoop (env ++ pEnv) rest

/-- Embedding of `MultiRunningEnvProvider.Env` (runner.go), over the
results of the member providers in list order. -/
def MultiRunningEnvProvider.Env
    (ps : List (Except GoErr (List GoStr))) : Except GoErr (List GoStr) :=
  multiEnvLoop [] ps

/-- The fixed prefix of the plugin-descriptor provider (runner.go). -/
def descriptorPfx : GoStr := gs "KUBECTL_PLUGINS_DESCRIPTOR_"

/-- Embedding of `PluginDescriptorEnvProvider.Env` (runner.go): the
`Plugin` pointer field is `Option Plugin`; a nil plugin fails, otherwise
one `FieldToEnv` entry per descriptor field is appended in source
order. -/
def PluginDescriptorEnvProvider.Env (pl : Option Plugin) :
    Except GoErr (List GoStr) :=
  match pl with
  | none => Except.error (gs "plugin not present to extract env")
  | some p =>
    Except.ok
      [FieldToEnv (gs "Name") p.name descriptorPfx,
       FieldToEnv (gs "ShortDesc") p.shortDesc descriptorPfx,
       FieldToEnv (gs "LongDesc") p.longDesc descriptorPfx,
       FieldToEnv (gs "Example") p.exampleStr descriptorPfx,
       FieldToEnv (gs "Command") p.command descriptorPfx]

/-! ### pkg/kubectl/cmd/plugin.go — command binder -/

/-- A registered command flag: its name and its current value rendered
to text (`pflag.Flag`'s `Name` and `Value.String()`). -/
structure PFlag where
  name : GoStr
  value : GoStr
deriving DecidableEq

/-- Connection configuration (`restclient.Config`).  The spec treats the
configuration/connection-loading subsystem as an opaque external
collaborator, so the fields are not modelled; a value of this type only
marks which configuration the connection-config provider was bound to. -/
structure RestConfig where
deriving DecidableEq

/-- The identity of one member of the composite provider list built by
`NewCmdForPlugin`'s run closure (plugin.go lines 95-110), with the data
each provider was constructed over. -/
inductive EnvProviderSpec : Type where
  | pluginCaller : EnvProviderSpec
  | osEnv : EnvProviderSpec
  | pluginDescriptor : Plugin → EnvProviderSpec
  | flags : List PFlag → EnvProviderSpec
  | factoryAttrs : EnvProviderSpec
  | restClientConfig : RestConfig → EnvProviderSpec

/-- What invoking a bound plugin command does: fall back to the
subcommand help (empty invocation template), abort via
`cmdutil.CheckErr` (client-config resolution failed), or hand a running
context — provider list, the command's arguments, and the plugin's
source directory as working directory — to the process runner. -/
inductive PluginCmdAction : Type where
  | subcommandHelp : PluginCmdAction
  | fatal : GoErr → PluginCmdAction
  | invokeRunner : List EnvProviderSpec → List GoStr → GoStr → PluginCmdAction

/-- Embedding of the `Run` closure of `NewCmdForPlugin` (plugin.go):
`clientCfg` is the result of `f.ClientConfig()`, `cmdFlags` the
registered flags of the invoked command (visited by the flags provider).
An empty invocation template falls back to subcommand help; otherwise
the composite provider list is built in source order — caller, OS
environment, plugin descriptor, command flags, factory attributes
(current namespace), rest-client config — and the runner is invoked. -/
def pluginCommandRun (clientCfg : Except GoErr RestConfig)
    (cmdFlags : List PFlag) (plugin : Plugin) (args : List GoStr) :
    PluginCmdAction :=
  if plugin.command = [] then PluginCmdAction.subcommandHelp
  else
    match clientCfg with
    | Except.error e => PluginCmdAction.fatal e
    | Except.ok cfg =>
      PluginCmdAction.invokeRunner
        [EnvProviderSpec.pluginCaller,
         EnvProviderSpec.osEnv,
         EnvProviderSpec.pluginDescriptor plugin,
         EnvProviderSpec.flags cmdFlags,
         EnvProviderSpec.factoryAttrs,
         EnvProviderSpec.restClientConfig cfg]
        args plugin.dir

/-- A bound cobra command: its `Use` token, the denotation of its `Run`
closure, and its subcommands.  The help-text fields (`Short`, `Long`,
`Example`, formatted by the external templates package) carry no
claim-relevant behavior and are omitted. -/
inductive CobraCommand : Type where
  | mk : (use : GoStr) → (run : List GoStr → PluginCmdAction) →
      (commands : List CobraCommand) → CobraCommand

/-- The `Use` token of a bound command. -/
def CobraCommand.use : CobraCommand → GoStr
  | .mk u _ _ => u

/-- The denotation of a bound command's `Run` closure. -/
def CobraCommand.run : CobraCommand → (List GoStr → PluginCmdAction)
  | .mk _ r _ => r

/-- The subcommands of a bound command. -/
def CobraCommand.commands : CobraCommand → List CobraCommand
  | .mk _ _ c => c

mutual

/-- Embedding of `NewCmdForPlugin` (plugin.go): an invalid descriptor
(empty name) yields no command; otherwise one command is built whose
`Use` is the plugin name, whose run closure is `pluginCommandRun`, and
whose subcommands bind the children recursively.  Modelled from the
spec for the child wiring: `cmd.AddCommand` of the nil command returned
for an invalid child excludes that child ("invalid descriptors are
silently excluded from binding"). -/
def NewCmdForPlugin (clientCfg : Except GoErr RestConfig)
    (cmdFlags : List PFlag) : Plugin → Option CobraCommand
  | Plugin.mk nm sd ld ex cm tr dr =>
    if nm = [] then none
    else
      some (CobraCommand.mk nm
        (fun args =>
          pluginCommandRun clientCfg cmdFlags (Plugin.mk nm sd ld ex cm tr dr) args)
        (bindPluginTree clientCfg cmdFlags tr))

/-- Binding of a list of child descriptors, in order, skipping the
invalid ones. -/
def bindPluginTree (clientCfg : Except GoErr RestConfig)
    (cmdFlags : List PFlag) : List Plugin → List CobraCommand
  | [] => []
  | p :: ps =>
    match NewCmdForPlugin clientCfg cmdFlags p with
    | none => bindPluginTree clientCfg cmdFlags ps
    | some c => c :: bindPluginTree clientCfg cmdFlags ps

end

/-! ### Spec-side comparison definitions -/

/-- Whitespace bytes: space, tab, newline, carriage return. -/
def isWhitespaceByte (b : Nat) : Bool :=
  b == 32 || b == 9 || b == 10 || b == 13

/-- Modelled from the spec's words, for comparison with the code's
tokenization: "tokenize the expanded template on whitespace" — the
tokens are the maximal whitespace-free runs (no empty tokens). -/
def specWhitespaceTokenize (s : GoStr) : List GoStr :=
  (splitWhen isWhitespaceByte s).filter (fun t => !t.isEmpty)

/-- Character-wise transform described by the flag-name claim: a dash
becomes an underscore, a lowercase letter becomes uppercase, everything
else is unchanged. -/
def flagCharMap (b : Nat) : Nat :=
  if b = 45 then 95
  else if 97 ≤ b ∧ b ≤ 122 then b - 32
  else b

/-- Number of providers handed to the runner by a plugin-command action
(0 when the runner is not invoked). -/
def actionProvidersCount : PluginCmdAction → Nat
  | PluginCmdAction.invokeRunner ps _ _ => ps.length
  | _ => 0

/-! ### Concrete fixtures -/

/-- The spec's example descriptor: name `status`, invocation template
`echo hello`, no children. -/
def statusPlugin : Plugin :=
  Plugin.mk (gs "status") (gs "st") (gs "") (gs "") (gs "echo hello") [] (gs "/d")

/-- A descriptor whose invocation template contains a tab between the
words (no space byte). -/
def tabPlugin : Plugin :=
  Plugin.mk (gs "t") (gs "") (gs "") (gs "") (gs "echo\they") [] (gs "/w")

/-- A descriptor whose invocation template is non-empty but starts with
a space. -/
def spacePlugin : Plugin :=
  Plugin.mk (gs "sp") (gs "") (gs "") (gs "") (gs " true") [] (gs "")

/-- A descriptor with an empty name (invalid for binding). -/
def namelessPlugin : Plugin :=
  Plugin.mk (gs "") (gs "") (gs "") (gs "") (gs "true") [] (gs "")

/-! ## Helper lemmas -/

/-- Composing the uppercase map with the dash-replacement map gives the
character-wise transform `flagCharMap`. -/
theorem replaceDash_toUpper_eq_map (s : GoStr) :
    goReplaceDashUnderscore (goToUpper s) = s.map flagCharMap := by
  simp only [goReplaceDashUnderscore, goToUpper, List.map_map]
  congr 1
  funext b
  simp only [Function.comp, flagCharMap]
  split_ifs <;> omega

/-- A string free of bytes satisfying `p` is a single token. -/
theorem splitWhen_of_none (p : Nat → Bool) (s : GoStr)
    (h : ∀ b ∈ s, p b = false) : splitWhen p s = [s] := by
  induction s with
  | nil => rfl
  | cons b rest ih =>
    have hb : p b = false := h b (List.mem_cons_self b rest)
    have hr := ih (fun x hx => h x (List.mem_cons_of_mem b hx))
    simp [splitWhen, hb, hr]

/-- Splitting after a clean token followed by a separator peels off that
token. -/
theorem splitWhen_append (p : Nat → Bool) (s t : GoStr) (b0 : Nat)
    (hs : ∀ b ∈ s, p b = false) (hb0 : p b0 = true) :
    splitWhen p (s ++ b0 :: t) = s :: splitWhen p t := by
  induction s with
  | nil => simp [splitWhen, hb0]
  | cons b rest ih =>
    have hb : p b = false := hs b (List.mem_cons_self b rest)
    have hr := ih (fun x hx => hs x (List.mem_cons_of_mem b hx))
    simp [splitWhen, hb, hr]

/-- Splitting is a left inverse of joining on a separator byte absent
from every segment. -/
theorem goSplitOnByte_goJoin (sep : Nat) (segs : List GoStr)
    (hne : segs ≠ []) (h : ∀ x ∈ segs, sep ∉ x) :
    goSplitOnByte sep (goJoin [sep] segs) = segs := by
  induction segs with
  | nil => exact absurd rfl hne
  | cons x xs ih =>
    have hx : ∀ b ∈ x, (b == sep) = false := by
      intro b hb
      have : b ≠ sep := by
        intro hbs
        exact h x (List.mem_cons_self x xs) (hbs ▸ hb)
      simpa using this
    cases xs with
    | nil =>
      exact splitWhen_of_none _ x hx
    | cons y ys =>
      have hj : goJoin [sep] (x :: y :: ys) = x ++ sep :: goJoin [sep] (y :: ys) := by
        simp [goJoin]
      rw [hj]
      unfold goSplitOnByte
      rw [splitWhen_append _ x _ sep hx (by simp)]
      have hxs : goSplitOnByte sep (goJoin [sep] (y :: ys)) = y :: ys :=
        ih (by simp) (fun z hz => h z (List.mem_cons_of_mem x hz))
      unfold goSplitOnByte at hxs
      rw [hxs]

/-- The descriptor field name `Name` under the descriptor prefix. -/
theorem descKeyName : FieldToEnvName (gs "Name") descriptorPfx
    = gs "KUBECTL_PLUGINS_DESCRIPTOR_NAME" := by decide

/-- The descriptor field name `ShortDesc` under the descriptor prefix. -/
theorem descKeyShortDesc : FieldToEnvName (gs "ShortDesc") descriptorPfx
    = gs "KUBECTL_PLUGINS_DESCRIPTOR_SHORT_DESC" := by decide

/-- The descriptor field name `LongDesc` under the descriptor prefix. -/
theorem descKeyLongDesc : FieldToEnvName (gs "LongDesc") descriptorPfx
    = gs "KUBECTL_PLUGINS_DESCRIPTOR_LONG_DESC" := by decide

/-- The descriptor field name `Example` under the descriptor prefix. -/
theorem descKeyExample : FieldToEnvName (gs "Example") descriptorPfx
    = gs "KUBECTL_PLUGINS_DESCRIPTOR_EXAMPLE" := by decide

/-- The descriptor field name `Command` under the descriptor prefix. -/
theorem descKeyCommand : FieldToEnvName (gs "Command") descriptorPfx
    = gs "KUBECTL_PLUGINS_DESCRIPTOR_COMMAND" := by decide

/-! ## Claims -/

/-- Claim C1: for every ordered provider list `[A, B, C]` where `B`
fails (and `A`, having run first, produced its entries), the composite
provider returns `B`'s failure; no entries of `A` or `C` survive in the
result — the partial output accumulated before the failure is
discarded (the Go code returns the empty slice with the error). -/
theorem claimC1_multi_env_fail_fast (aEnv : List GoStr) (e : GoErr)
    (cRes : Except GoErr (List GoStr)) :
    MultiRunningEnvProvider.Env [Except.ok aEnv, Except.error e, cRes]
      = Except.error e := rfl

/-- Claim C2: for every ordered provider list `[A, B]` where both
succeed, the composite provider succeeds with exactly `A`'s entries
followed by `B`'s entries, each provider's internal order preserved. -/
theorem claimC2_multi_env_concat (aEnv bEnv : List GoStr) :
    MultiRunningEnvProvider.Env [Except.ok aEnv, Except.ok bEnv]
      = Except.ok (aEnv ++ bEnv) := by
  simp [MultiRunningEnvProvider.Env, multiEnvLoop]

/-- Claim C3: whenever the running context's environment provider fails,
`ExecPluginRunner.Run` returns exactly that failure and the child
process is never started (`Except.ok` — the only started-child outcome
in this model — is not produced). -/
theorem claimC3_run_env_failure (ambient : List (GoStr × GoStr))
    (plugin : Plugin) (ctx : RunningContext) (e : GoErr)
    (h : ctx.envProvider = Except.error e) :
    ExecPluginRunner.Run ambient plugin ctx = Except.error e := by
  simp [ExecPluginRunner.Run, h]

/-- Witness for claim C3 at a concrete failing provider. -/
theorem claimC3_run_env_failure_witness :
    ExecPluginRunner.Run [] statusPlugin
      ⟨[], Except.error (gs "boom"), gs "/d"⟩ = Except.error (gs "boom") :=
  claimC3_run_env_failure [] statusPlugin _ (gs "boom") rfl

/-- Claim C7: for every flag name and prefix, `FlagToEnvName` returns
the prefix followed exactly by the character-wise transform of the
`--`-stripped name (uppercasing, dashes to underscores), and that body
contains no dash (in particular no leading dash) and no lowercase
letter.  The function is total by construction. -/
theorem claimC7_flag_to_env_name (nm pfx : GoStr) :
    FlagToEnvName nm pfx = pfx ++ (goTrimPrefixDashes nm).map flagCharMap
    ∧ ∀ b ∈ (goTrimPrefixDashes nm).map flagCharMap,
        b ≠ 45 ∧ ¬(97 ≤ b ∧ b ≤ 122) := by
  constructor
  · unfold FlagToEnvName
    rw [replaceDash_toUpper_eq_map]
  · intro b hb
    rcases List.mem_map.mp hb with ⟨a, _, rfl⟩
    unfold flagCharMap
    split_ifs <;> omega

/-- Claim C4, counterexample: the claim says the expanded template is
tokenized on whitespace, but the code splits only on the space byte.
For the template `echo\they` the whitespace tokenization yields the
base `echo` with argument `hey`, while the runner starts the child with
the whole template — tab included — as the base and no fixed
arguments. -/
theorem claimC4_whitespace_counterexample :
    ExecPluginRunner.Run [] tabPlugin ⟨[], Except.ok [], gs "/w"⟩
      = Except.ok ⟨gs "echo\they", [], [], gs "/w"⟩
    ∧ specWhitespaceTokenize (osExpandEnv [] tabPlugin.command)
      = [gs "echo", gs "hey"]
    ∧ (gs "echo\they" : GoStr) ≠ gs "echo" :=
  ⟨rfl, by decide, by decide⟩

/-- Claim C4 as amended: `Run` expands environment-variable references
in the invocation template against the ambient (current-process)
environment — not against the composed child environment `env` — then
splits the expanded template on single space bytes (consecutive spaces
yield empty tokens; other whitespace is not a separator) into the base
executable and fixed leading arguments, and appends `ctx.args` verbatim
to form the final argument vector. -/
theorem claimC4_template_expansion (ambient : List (GoStr × GoStr))
    (plugin : Plugin) (ctx : RunningContext) (env : List GoStr)
    (h : ctx.envProvider = Except.ok env) :
    ExecPluginRunner.Run ambient plugin ctx =
      Except.ok
        ⟨(goSplitOnByte 32 (osExpandEnv ambient plugin.command)).headD [],
         (goSplitOnByte 32 (osExpandEnv ambient plugin.command)).tail ++ ctx.args,
         env, ctx.workingDir⟩ := by
  simp [ExecPluginRunner.Run, h]

/-- Witness for the amended claim C4: the `status` plugin's template
`echo hello` with one user argument produces base `echo` and argument
vector `hello -v`. -/
theorem claimC4_template_expansion_witness :
    ExecPluginRunner.Run [] statusPlugin ⟨[gs "-v"], Except.ok [], gs "/d"⟩
      = Except.ok ⟨gs "echo", [gs "hello", gs "-v"], [], gs "/d"⟩ :=
  claimC4_template_expansion [] statusPlugin ⟨[gs "-v"], Except.ok [], gs "/d"⟩ [] rfl

/-- Claim C5, counterexample: the bound command's run closure does not
build the five-provider list the claim states — between the flags
provider and the connection-config provider the code also inserts the
factory-attributes (current namespace) provider, so the list has six
members. -/
theorem claimC5_provider_list_counterexample :
    pluginCommandRun (Except.ok ⟨⟩) [] statusPlugin [] ≠
      PluginCmdAction.invokeRunner
        [EnvProviderSpec.pluginCaller,
         EnvProviderSpec.osEnv,
         EnvProviderSpec.pluginDescriptor statusPlugin,
         EnvProviderSpec.flags [],
         EnvProviderSpec.restClientConfig ⟨⟩]
        [] (gs "/d") :=
  fun h => absurd (congrArg actionProvidersCount h) (by decide)

/-- Claim C5 as amended: for every invocation of a bound plugin command
(non-empty template, client config resolved), the composite provider
list is exactly, in order: caller identity, OS environment, plugin
descriptor, the invoking command's flags, the factory attributes
(current namespace), and the connection config. -/
theorem claimC5_provider_list (cfg : RestConfig) (fl : List PFlag)
    (p : Plugin) (args : List GoStr) (h : p.command ≠ []) :
    pluginCommandRun (Except.ok cfg) fl p args =
      PluginCmdAction.invokeRunner
        [EnvProviderSpec.pluginCaller,
         EnvProviderSpec.osEnv,
         EnvProviderSpec.pluginDescriptor p,
         EnvProviderSpec.flags fl,
         EnvProviderSpec.factoryAttrs,
         EnvProviderSpec.restClientConfig cfg]
        args p.dir := by
  simp [pluginCommandRun, h]

/-- Witness for the amended claim C5 at the `status` fixture. -/
theorem claimC5_provider_list_witness :
    pluginCommandRun (Except.ok ⟨⟩) [] statusPlugin [] =
      PluginCmdAction.invokeRunner
        [EnvProviderSpec.pluginCaller,
         EnvProviderSpec.osEnv,
         EnvProviderSpec.pluginDescriptor statusPlugin,
         EnvProviderSpec.flags [],
         EnvProviderSpec.factoryAttrs,
         EnvProviderSpec.restClientConfig ⟨⟩]
        [] (gs "/d") :=
  claimC5_provider_list ⟨⟩ [] statusPlugin [] (by decide)

/-- Claim C6: a descriptor with an empty name binds to no command; the
`status` descriptor with template `echo hello` and no children binds to
exactly one command whose `Use` is `status` and which has no
subcommands; and a valid descriptor's children are bound recursively,
preserving the tree shape. -/
theorem claimC6_binding :
    (∀ cfg fl p, Plugin.name p = [] → NewCmdForPlugin cfg fl p = none)
    ∧ (∀ cfg fl,
        (NewCmdForPlugin cfg fl statusPlugin).map CobraCommand.use
          = some (gs "status")
        ∧ (NewCmdForPlugin cfg fl statusPlugin).map CobraCommand.commands
          = some [])
    ∧ (∀ cfg fl p, Plugin.name p ≠ [] →
        (NewCmdForPlugin cfg fl p).map CobraCommand.use = some p.name
        ∧ (NewCmdForPlugin cfg fl p).map CobraCommand.commands
          = some (bindPluginTree cfg fl p.tree)) := by
  refine ⟨?_, ?_, ?_⟩
  · intro cfg fl p h
    cases p with
    | mk nm sd ld ex cm tr dr =>
      simp only [Plugin.name] at h
      simp [NewCmdForPlugin, h]
  · intro cfg fl
    constructor <;> rfl
  · intro cfg fl p h
    cases p with
    | mk nm sd ld ex cm tr dr =>
      simp only [Plugin.name] at h
      simp [NewCmdForPlugin, h, Plugin.name, Plugin.tree,
        CobraCommand.use, CobraCommand.commands]

/-- Witness for claim C6: the empty-name fixture binds to no command,
and a parent with one valid and one invalid child binds to a command
with exactly one subcommand. -/
theorem claimC6_binding_witness :
    NewCmdForPlugin (Except.ok ⟨⟩) [] namelessPlugin = none
    ∧ (NewCmdForPlugin (Except.ok ⟨⟩) []
        (Plugin.mk (gs "parent") (gs "") (gs "") (gs "") (gs "true")
          [namelessPlugin, statusPlugin] (gs ""))).map CobraCommand.commands
      = some (bindPluginTree (Except.ok ⟨⟩) [] [namelessPlugin, statusPlugin]) :=
  ⟨claimC6_binding.1 (Except.ok ⟨⟩) [] namelessPlugin (by decide),
   (claimC6_binding.2.2 (Except.ok ⟨⟩) []
      (Plugin.mk (gs "parent") (gs "") (gs "") (gs "") (gs "true")
        [namelessPlugin, statusPlugin] (gs "")) (by decide)).2⟩

/-- Claim C8: `FieldToEnvName` preserves `.`-separated segment order and
joins the transformed segments with underscores under the prefix; the
camel-case split is acronym-aware: `APIPath` becomes `API_PATH`, not
`A_P_I_PATH`, and `Impersonate.Groups` becomes `IMPERSONATE_GROUPS`. -/
theorem claimC8_field_to_env_name :
    (∀ (segs : List GoStr) (pfx : GoStr), segs ≠ [] →
      (∀ x ∈ segs, 46 ∉ x) →
      FieldToEnvName (goJoin [46] segs) pfx
        = pfx ++ goJoin [95] (segs.map segToEnvPart))
    ∧ FieldToEnvName (gs "APIPath") (gs "P_") = gs "P_API_PATH"
    ∧ FieldToEnvName (gs "APIPath") (gs "P_") ≠ gs "P_A_P_I_PATH"
    ∧ FieldToEnvName (gs "Impersonate.Groups") (gs "X_")
      = gs "X_IMPERSONATE_GROUPS" := by
  refine ⟨?_, by decide, by decide, by decide⟩
  intro segs pfx hne h
  unfold FieldToEnvName
  rw [goSplitOnByte_goJoin 46 segs hne h]

/-- Witness for claim C8 at the two-segment field path
`Impersonate.Groups`. -/
theorem claimC8_field_to_env_name_witness :
    FieldToEnvName (goJoin [46] [gs "Impersonate", gs "Groups"]) (gs "X_")
      = gs "X_" ++ goJoin [95] ([gs "Impersonate", gs "Groups"].map segToEnvPart) :=
  claimC8_field_to_env_name.1 [gs "Impersonate", gs "Groups"] (gs "X_")
    (by decide) (by decide)

/-- Claim C9: the plugin-descriptor provider fails exactly when no
descriptor is bound; with a bound descriptor it returns exactly one
entry per field — name, short summary, long help, example, invocation
template, in that order — each a `KEY=value` entry under the fixed
prefix `KUBECTL_PLUGINS_DESCRIPTOR_`. -/
theorem claimC9_descriptor_env :
    (∀ pl : Option Plugin,
      (∃ e, PluginDescriptorEnvProvider.Env pl = Except.error e) ↔ pl = none)
    ∧ ∀ p : Plugin,
        PluginDescriptorEnvProvider.Env (some p) =
          Except.ok
            [gs "KUBECTL_PLUGINS_DESCRIPTOR_NAME" ++ 61 :: p.name,
             gs "KUBECTL_PLUGINS_DESCRIPTOR_SHORT_DESC" ++ 61 :: p.shortDesc,
             gs "KUBECTL_PLUGINS_DESCRIPTOR_LONG_DESC" ++ 61 :: p.longDesc,
             gs "KUBECTL_PLUGINS_DESCRIPTOR_EXAMPLE" ++ 61 :: p.exampleStr,
             gs "KUBECTL_PLUGINS_DESCRIPTOR_COMMAND" ++ 61 :: p.command] := by
  constructor
  · intro pl
    cases pl with
    | none => exact ⟨fun _ => rfl, fun _ => ⟨gs "plugin not present to extract env", rfl⟩⟩
    | some p => simp [PluginDescriptorEnvProvider.Env]
  · intro p
    simp [PluginDescriptorEnvProvider.Env, FieldToEnv,
      descKeyName, descKeyShortDesc, descKeyLongDesc, descKeyExample, descKeyCommand]

/-- Claim C10, counterexample: the guard only checks that the template
is non-empty, which does not make the base token non-empty.  The
template `" true"` (leading space) reaches the runner, and the runner
starts the child with an empty base executable. -/
theorem claimC10_empty_base_counterexample :
    spacePlugin.command ≠ []
    ∧ pluginCommandRun (Except.ok ⟨⟩) [] spacePlugin []
      = PluginCmdAction.invokeRunner
          [EnvProviderSpec.pluginCaller,
           EnvProviderSpec.osEnv,
           EnvProviderSpec.pluginDescriptor spacePlugin,
           EnvProviderSpec.flags [],
           EnvProviderSpec.factoryAttrs,
           EnvProviderSpec.restClientConfig ⟨⟩]
          [] (gs "")
    ∧ ExecPluginRunner.Run [] spacePlugin ⟨[], Except.ok [], gs ""⟩
      = Except.ok ⟨[], [gs "true"], [], gs ""⟩ :=
  ⟨by decide, rfl, rfl⟩

/-- Claim C10 as amended: a bound plugin command with an empty
invocation template never invokes the process runner — it falls back to
the subcommand-help behavior — and conversely the runner is only
reached with a non-empty template.  (The tokenization of a non-empty
template may still yield an empty base token, e.g. for a template with
a leading space.) -/
theorem claimC10_empty_template_guard (clientCfg : Except GoErr RestConfig)
    (fl : List PFlag) (p : Plugin) (args : List GoStr) :
    (p.command = [] →
      pluginCommandRun clientCfg fl p args = PluginCmdAction.subcommandHelp)
    ∧ ∀ provs a wd,
        pluginCommandRun clientCfg fl p args
          = PluginCmdAction.invokeRunner provs a wd → p.command ≠ [] := by
  constructor
  · intro h
    simp [pluginCommandRun, h]
  · intro provs a wd h hcmd
    simp [pluginCommandRun, hcmd] at h

/-- Witness for the amended claim C10: a descriptor with an empty
template falls back to subcommand help. -/
theorem claimC10_empty_template_guard_witness :
    pluginCommandRun (Except.ok ⟨⟩) []
      (Plugin.mk (gs "n") (gs "") (gs "") (gs "") (gs "") [] (gs "")) []
      = PluginCmdAction.subcommandHelp :=
  (claimC10_empty_template_guard (Except.ok ⟨⟩) []
    (Plugin.mk (gs "n") (gs "") (gs "") (gs "") (gs "") [] (gs "")) []).1 (by decide)
